import Mathlib

/-!
Verification of the infinite shuffled-spots feed of `src/hooks/useInfiniteShuffledSpots.ts`.

The hook keeps five pieces of state: a sliding-window pool of spots (`poolRef`),
the append-only list of displayed spots (`displayedSpots`), the set of already
ingested spot identifiers (`seenIdsRef`), the scheduler-busy flag
(`isReshufflingRef`) and the `initializedRef` flag for the initial load.
The embedding below models that state as an explicit record and each event of
the hook (spots ingestion effect, `preloadNextBatch`/`getNextBatch`, the settle
timeout that clears the busy flag) as a pure state-transition function.

Randomness (`Math.random()` inside `shuffleArray`) is modelled by an oracle
`rand : Nat → Nat`: at loop index `i` the JavaScript draw
`Math.floor(Math.random() * (i + 1))` is represented as `rand i % (i + 1)`,
which ranges over exactly the same values `0 .. i`.

The upstream fetch callback `onFetchMore` is fire-and-forget; transitions that
may invoke it return the number of invocations performed alongside the new
state, and the flag `hasOnFetchMore` models whether a callback was supplied.
-/

namespace InfiniteShuffledSpots

/-- The nested `author` field of the `Spot` type of `src/components/SwipeDeck/index.tsx`. -/
structure Author where
  name : String
  image : Option String := none
  username : Option String := none
deriving DecidableEq

/-- The `Spot` record of `src/components/SwipeDeck/index.tsx` (the item type the hook manages). -/
structure Spot where
  id : String
  title : String
  coverUrl : Option String := none
  city : Option String := none
  country : Option String := none
  author : Option Author := none
deriving DecidableEq

/-- The mutable state of one mounted `useInfiniteShuffledSpots` hook:
`poolRef.current`, `displayedSpots`, `seenIdsRef.current`,
`isReshufflingRef.current` and `initializedRef.current`. -/
structure PoolState where
  pool : List Spot
  displayedSpots : List Spot
  seenIds : Finset String
  isReshuffling : Bool
  initialized : Bool
deriving DecidableEq

/-- State at mount: all refs start empty / false. -/
def initState : PoolState :=
  { pool := [], displayedSpots := [], seenIds := ∅,
    isReshuffling := false, initialized := false }

/-- One iteration's destructuring swap
`[shuffled[i], shuffled[j]] = [shuffled[j], shuffled[i]]` of `shuffleArray`. -/
def swapIdx (l : List α) (i j : Nat) : List α :=
  match l.get? i, l.get? j with
  | some a, some b => (l.set i b).set j a
  | _, _ => l

/-- The `for (let i = shuffled.length - 1; i > 0; i--)` loop of `shuffleArray`:
the first argument is the current loop index `i`; the loop stops once `i = 0`. -/
def shuffleGo (rand : Nat → Nat) : Nat → List α → List α
  | 0, l => l
  | i + 1, l => shuffleGo rand i (swapIdx l (i + 1) (rand (i + 1) % (i + 2)))

/-- `shuffleArray` (lines 7-14): Fisher-Yates shuffle of a copy of the input.
The JavaScript mutates a spread copy `[...array]`; the embedding returns the
shuffled list and leaves the input untouched by construction. -/
def shuffleArray (rand : Nat → Nat) (l : List α) : List α :=
  shuffleGo rand (l.length - 1) l

/-- `maintainPoolSize` (lines 37-52): append the new spots at the back of the
pool, record their ids as seen, and if the pool now exceeds `maxPoolSize` drop
`poolRef.current.length - maxPoolSize` spots from the front. -/
def maintainPoolSize (maxPoolSize : Nat) (s : PoolState) (newSpots : List Spot) : PoolState :=
  { s with
    pool :=
      if maxPoolSize < (s.pool ++ newSpots).length then
        (s.pool ++ newSpots).drop ((s.pool ++ newSpots).length - maxPoolSize)
      else s.pool ++ newSpots,
    seenIds := newSpots.foldl (fun acc sp => insert sp.id acc) s.seenIds }

/-- The seen-id filter `spots.filter((s) => !seenIdsRef.current.has(s.id))` (line 61). -/
def unseenOf (s : PoolState) (spots : List Spot) : List Spot :=
  spots.filter fun sp => !decide (sp.id ∈ s.seenIds)

/-- Lines 72-82 of the ingestion effect: on initial load with a non-empty pool,
shuffle the pool and publish the first `min(batchSize * 3, shuffled.length)`
spots as the initial displayed batch, then mark the hook initialized. -/
def finishInitialLoad (batchSize : Nat) (rand : Nat → Nat) (isInitialLoad : Bool)
    (s : PoolState) : PoolState :=
  if isInitialLoad ∧ 0 < s.pool.length then
    { s with
      displayedSpots :=
        (shuffleArray rand s.pool).take (min (batchSize * 3) (shuffleArray rand s.pool).length),
      initialized := true }
  else s

/-- The spots-ingestion effect (lines 55-83): skip empty input, filter the
incoming spots against the seen set, absorb the unseen ones (or, on an initial
load where everything was filtered away, absorb the whole input), and on the
initial load publish the first displayed batch. -/
def ingestSpots (batchSize maxPoolSize : Nat) (rand : Nat → Nat)
    (s : PoolState) (spots : List Spot) : PoolState :=
  if spots.length = 0 then s
  else
    finishInitialLoad batchSize rand (!s.initialized)
      (if 0 < (unseenOf s spots).length then maintainPoolSize maxPoolSize s (unseenOf s spots)
       else if (!s.initialized) ∧ 0 < spots.length then maintainPoolSize maxPoolSize s spots
       else s)

/-- The candidate batch of `preloadNextBatch` (lines 104-108): the first
`min(batchSize * 2, shuffled.length)` items of a shuffled copy of the pool. -/
def candidateBatch (batchSize : Nat) (rand : Nat → Nat) (s : PoolState) : List Spot :=
  (shuffleArray rand s.pool).take (min (batchSize * 2) (shuffleArray rand s.pool).length)

/-- The identifiers of `prev.slice(-batchSize)` (line 113): the last `batchSize`
displayed spots. JavaScript's `slice(-0)` is `slice(0)`, the whole list, so the
`batchSize = 0` case is spelled out. -/
def recentIdsOf (batchSize : Nat) (s : PoolState) : List String :=
  (if batchSize = 0 then s.displayedSpots
   else s.displayedSpots.drop (s.displayedSpots.length - batchSize)).map fun sp => sp.id

/-- The anti-repeat filter of `preloadNextBatch` (line 115): drop candidates
whose id was among the last `batchSize` displayed spots. -/
def filteredBatch (batchSize : Nat) (rand : Nat → Nat) (s : PoolState) : List Spot :=
  (candidateBatch batchSize rand s).filter fun sp => !(recentIdsOf batchSize s).contains sp.id

/-- `spotsToAdd` (line 119): the filtered batch, or the unfiltered candidate
batch when filtering removed everything. -/
def spotsToAddOf (batchSize : Nat) (rand : Nat → Nat) (s : PoolState) : List Spot :=
  if 0 < (filteredBatch batchSize rand s).length then filteredBatch batchSize rand s
  else candidateBatch batchSize rand s

/-- The `onFetchMore` invocation of lines 88-91: fires when the pool is below
`batchSize` and a callback was supplied. Counts invocations (0 or 1). -/
def fetchBefore (batchSize : Nat) (hasOnFetchMore : Bool) (s : PoolState) : Nat :=
  if s.pool.length < batchSize ∧ hasOnFetchMore = true then 1 else 0

/-- The `onFetchMore` invocation of lines 126-128: fires after the batch commit
when the pool is below `batchSize * 2` and a callback was supplied. -/
def fetchAfter (batchSize : Nat) (hasOnFetchMore : Bool) (s : PoolState) : Nat :=
  if s.pool.length < batchSize * 2 ∧ hasOnFetchMore = true then 1 else 0

/-- `preloadNextBatch` (lines 86-134), run to completion of its animation-frame
body. Returns the new state and the number of `onFetchMore` invocations.
The busy flag is left set by the batch commit; it is cleared only by the
separate 50 ms settle timeout, modelled by `settleReshuffle`. -/
def preloadNextBatch (batchSize : Nat) (hasOnFetchMore : Bool) (rand : Nat → Nat)
    (s : PoolState) : PoolState × Nat :=
  if s.pool.length < batchSize ∧ s.pool.length = 0 then
    (s, fetchBefore batchSize hasOnFetchMore s)
  else if s.isReshuffling then
    (s, fetchBefore batchSize hasOnFetchMore s)
  else
    ({ s with
        displayedSpots := s.displayedSpots ++ spotsToAddOf batchSize rand s,
        isReshuffling := true },
      fetchBefore batchSize hasOnFetchMore s + fetchAfter batchSize hasOnFetchMore s)

/-- `getNextBatch` (lines 137-141): delegates to `preloadNextBatch`. -/
def getNextBatch (batchSize : Nat) (hasOnFetchMore : Bool) (rand : Nat → Nat)
    (s : PoolState) : PoolState × Nat :=
  preloadNextBatch batchSize hasOnFetchMore rand s

/-- The settle timeout of lines 130-132: 50 ms after a batch commit the
scheduler-busy flag is cleared. -/
def settleReshuffle (s : PoolState) : PoolState :=
  { s with isReshuffling := false }

/-- Events that can hit the scheduler between ingestions: a `getNextBatch`
call (with the random draws it consumes) or the settle timeout firing. -/
inductive FeedEvent where
  | nextBatch (rand : Nat → Nat)
  | settles
deriving Inhabited

/-- One scheduler event applied to the state. -/
def stepEvent (batchSize : Nat) (hasOnFetchMore : Bool) (s : PoolState) :
    FeedEvent → PoolState
  | FeedEvent.nextBatch rand => (getNextBatch batchSize hasOnFetchMore rand s).1
  | FeedEvent.settles => settleReshuffle s

/-- A sequence of scheduler events (no intervening ingestion). -/
def runEvents (batchSize : Nat) (hasOnFetchMore : Bool) (s : PoolState)
    (evs : List FeedEvent) : PoolState :=
  evs.foldl (stepEvent batchSize hasOnFetchMore) s

/-- A sequence of ingestion calls, each with its own random draws and payload. -/
def runIngests (batchSize maxPoolSize : Nat) (s : PoolState)
    (calls : List ((Nat → Nat) × List Spot)) : PoolState :=
  calls.foldl (fun st c => ingestSpots batchSize maxPoolSize c.1 st c.2) s

/-- Concrete spots used by the witnesses and counterexamples below. -/
def spotA : Spot := { id := "a", title := "A" }

def spotB : Spot := { id := "b", title := "B" }

def spotC : Spot := { id := "c", title := "C" }

def spotD : Spot := { id := "d", title := "D" }

def spotE : Spot := { id := "e", title := "E" }

def spotF : Spot := { id := "f", title := "F" }

/-- A fixed random oracle for concrete runs (every draw lands on index 0). -/
def r0 : Nat → Nat := fun _ => 0

/-- State reached from mount by ingesting the single spot `a`:
pool `[a]`, displayed `[a]`, initialized, busy flag clear. -/
def seededState : PoolState := ingestSpots 1 200 r0 initState [spotA]

/-- State reached from `seededState` by one completed `getNextBatch` whose
settle timeout has not yet fired: the busy flag is still set. -/
def afterFirstBatch : PoolState := (getNextBatch 1 true r0 seededState).1

theorem length_swapIdx (l : List α) (i j : Nat) : (swapIdx l i j).length = l.length := by
  unfold swapIdx
  cases l.get? i <;> cases l.get? j <;> simp

theorem length_shuffleGo (rand : Nat → Nat) (i : Nat) (l : List α) :
    (shuffleGo rand i l).length = l.length := by
  induction i generalizing l with
  | zero => rfl
  | succ n ih => rw [shuffleGo, ih, length_swapIdx]

theorem length_shuffleArray (rand : Nat → Nat) (l : List α) :
    (shuffleArray rand l).length = l.length :=
  length_shuffleGo rand (l.length - 1) l

theorem maintain_pool_eq (M : Nat) (s : PoolState) (ns : List Spot) :
    (maintainPoolSize M s ns).pool = (s.pool ++ ns).drop ((s.pool ++ ns).length - M) := by
  simp only [maintainPoolSize]
  split
  · rfl
  · next h =>
    have h0 : (s.pool ++ ns).length - M = 0 := by omega
    rw [h0, List.drop_zero]

theorem maintain_seen_eq (M : Nat) (s : PoolState) (ns : List Spot) :
    (maintainPoolSize M s ns).seenIds
      = ns.foldl (fun acc sp => insert sp.id acc) s.seenIds := rfl

theorem finishInitialLoad_pool (b : Nat) (r : Nat → Nat) (ini : Bool) (s1 : PoolState) :
    (finishInitialLoad b r ini s1).pool = s1.pool := by
  unfold finishInitialLoad
  split <;> rfl

theorem finishInitialLoad_seen (b : Nat) (r : Nat → Nat) (ini : Bool) (s1 : PoolState) :
    (finishInitialLoad b r ini s1).seenIds = s1.seenIds := by
  unfold finishInitialLoad
  split <;> rfl

theorem finishInitialLoad_displayed_length (b : Nat) (r : Nat → Nat) (s1 : PoolState)
    (h : s1.pool ≠ []) :
    (finishInitialLoad b r true s1).displayedSpots.length
      = min (b * 3) (finishInitialLoad b r true s1).pool.length := by
  have hp : 0 < s1.pool.length := List.length_pos.2 h
  unfold finishInitialLoad
  rw [if_pos ⟨rfl, hp⟩]
  simp only [List.length_take, length_shuffleArray]
  omega

/-- C1: `maintainPoolSize` — the absorb operation of the Sliding-Window Pool — appends the
new items at the back of the pool and evicts exactly `size - maxPoolSize` items from the
front (the truncated-subtraction drop amount is `0` when the size stays within the bound),
the pool length never exceeds `maxPoolSize` after the call, absorbing an empty list leaves
the state unchanged, and absorbing more than `maxPoolSize` items in a single call retains
exactly the `maxPoolSize` most-recent items. -/
theorem C1_absorb_sliding_window (maxPoolSize : Nat) (s : PoolState) (newSpots : List Spot)
    (hs : s.pool.length ≤ maxPoolSize) :
    (maintainPoolSize maxPoolSize s newSpots).pool
        = (s.pool ++ newSpots).drop (s.pool.length + newSpots.length - maxPoolSize)
    ∧ (maintainPoolSize maxPoolSize s newSpots).pool.length ≤ maxPoolSize
    ∧ maintainPoolSize maxPoolSize s [] = s
    ∧ (maxPoolSize < newSpots.length →
        (maintainPoolSize maxPoolSize s newSpots).pool
          = newSpots.drop (newSpots.length - maxPoolSize)) := by
  have heq := maintain_pool_eq maxPoolSize s newSpots
  rw [List.length_append] at heq
  refine ⟨heq, ?_, ?_, ?_⟩
  · rw [heq, List.length_drop, List.length_append]
    omega
  · have hempty : maintainPoolSize maxPoolSize s ([] : List Spot) = s := by
      simp only [maintainPoolSize, List.append_nil, List.foldl_nil]
      rw [if_neg (by omega)]
    exact hempty
  · intro hlarge
    rw [heq, show s.pool.length + newSpots.length - maxPoolSize
          = s.pool.length + (newSpots.length - maxPoolSize) by omega,
        List.drop_append]

/-- Witness for C1 at `maxPoolSize = 3`, pool `[a]`, absorbing the five spots
`[b, c, d, e, f]`: three spots are evicted from the front and exactly the three
most-recent spots `[d, e, f]` remain. -/
theorem C1_absorb_sliding_window_witness :
    ((maintainPoolSize 3 { initState with pool := [spotA] }
          [spotB, spotC, spotD, spotE, spotF]).pool
        = (([spotA] : List Spot) ++ [spotB, spotC, spotD, spotE, spotF]).drop (1 + 5 - 3)
      ∧ (maintainPoolSize 3 { initState with pool := [spotA] }
          [spotB, spotC, spotD, spotE, spotF]).pool.length ≤ 3
      ∧ maintainPoolSize 3 { initState with pool := [spotA] } [] = { initState with pool := [spotA] }
      ∧ (3 < ([spotB, spotC, spotD, spotE, spotF] : List Spot).length →
          (maintainPoolSize 3 { initState with pool := [spotA] }
              [spotB, spotC, spotD, spotE, spotF]).pool
            = ([spotB, spotC, spotD, spotE, spotF] : List Spot).drop (5 - 3)))
    ∧ (maintainPoolSize 3 { initState with pool := [spotA] }
        [spotB, spotC, spotD, spotE, spotF]).pool = [spotD, spotE, spotF] :=
  ⟨C1_absorb_sliding_window 3 { initState with pool := [spotA] }
      [spotB, spotC, spotD, spotE, spotF] (by decide), by decide⟩

/-- C4: the very first batch production (hook not yet initialized) uses the
`batchSize * 3` multiplier: after the first ingestion the displayed list holds
`min (batchSize * 3) n` shuffled spots, where `n` is the resulting pool size. -/
theorem C4_initial_load_multiplier (batchSize maxPoolSize : Nat) (rand : Nat → Nat)
    (s : PoolState) (spots : List Spot)
    (hinit : s.initialized = false)
    (hspots : spots ≠ [])
    (hpool : (ingestSpots batchSize maxPoolSize rand s spots).pool ≠ []) :
    (ingestSpots batchSize maxPoolSize rand s spots).displayedSpots.length
      = min (batchSize * 3) (ingestSpots batchSize maxPoolSize rand s spots).pool.length := by
  have hlen : ¬ spots.length = 0 := by
    simpa [List.length_eq_zero] using hspots
  unfold ingestSpots at hpool ⊢
  rw [if_neg hlen] at hpool ⊢
  rw [hinit] at hpool ⊢
  rw [finishInitialLoad_pool] at hpool
  exact finishInitialLoad_displayed_length _ _ _ hpool

/-- Witness for C4: the spec's worked example — ingesting `[a, b, c, d, e]` from
mount with `batchSize = 2` makes the displayed list `min (2 * 3) 5 = 5` spots long. -/
theorem C4_initial_load_multiplier_witness :
    ((ingestSpots 2 200 r0 initState [spotA, spotB, spotC, spotD, spotE]).displayedSpots.length
        = min (2 * 3) (ingestSpots 2 200 r0 initState [spotA, spotB, spotC, spotD, spotE]).pool.length)
    ∧ (ingestSpots 2 200 r0 initState [spotA, spotB, spotC, spotD, spotE]).displayedSpots.length = 5 :=
  ⟨C4_initial_load_multiplier 2 200 r0 initState [spotA, spotB, spotC, spotD, spotE]
      rfl (by decide) (by decide), by decide⟩

theorem stepEvent_displayed_extends (b : Nat) (cb : Bool) (s : PoolState) (ev : FeedEvent) :
    ∃ ext, (stepEvent b cb s ev).displayedSpots = s.displayedSpots ++ ext := by
  cases ev with
  | nextBatch r =>
    simp only [stepEvent, getNextBatch, preloadNextBatch]
    split
    · exact ⟨[], (List.append_nil _).symm⟩
    · split
      · exact ⟨[], (List.append_nil _).symm⟩
      · exact ⟨spotsToAddOf b r s, rfl⟩
  | settles => exact ⟨[], (List.append_nil _).symm⟩

theorem runEvents_displayed_extends (b : Nat) (cb : Bool) (evs : List FeedEvent) :
    ∀ s : PoolState, ∃ ext, (runEvents b cb s evs).displayedSpots = s.displayedSpots ++ ext := by
  induction evs with
  | nil => exact fun s => ⟨[], (List.append_nil _).symm⟩
  | cons ev evs ih =>
    intro s
    obtain ⟨e1, h1⟩ := stepEvent_displayed_extends b cb s ev
    obtain ⟨e2, h2⟩ := ih (stepEvent b cb s ev)
    refine ⟨e1 ++ e2, ?_⟩
    show (runEvents b cb (stepEvent b cb s ev) evs).displayedSpots = _
    rw [h2, h1, List.append_assoc]

/-- C5: the displayed list is append-only across any sequence of scheduler events
(`getNextBatch` calls and settle timeouts): the pre-existing prefix is unchanged
element-for-element and the length never decreases. -/
theorem C5_displayed_append_only (b : Nat) (cb : Bool) (s : PoolState) (evs : List FeedEvent) :
    (runEvents b cb s evs).displayedSpots.take s.displayedSpots.length = s.displayedSpots
    ∧ s.displayedSpots.length ≤ (runEvents b cb s evs).displayedSpots.length := by
  obtain ⟨ext, h⟩ := runEvents_displayed_extends b cb evs s
  rw [h]
  exact ⟨List.take_left _ _, by simp⟩

theorem stepEvent_pool_eq (b : Nat) (cb : Bool) (s : PoolState) (ev : FeedEvent) :
    (stepEvent b cb s ev).pool = s.pool := by
  cases ev with
  | nextBatch r =>
    simp only [stepEvent, getNextBatch, preloadNextBatch]
    split
    · rfl
    · split <;> rfl
  | settles => rfl

/-- C6: any number of `getNextBatch` calls (and settle timeouts) without an
intervening ingestion leaves the pool exactly unchanged — same elements in the
same order, hence also unchanged as a multiset: shuffling operates on a copy. -/
theorem C6_shuffle_read_only_on_pool (b : Nat) (cb : Bool) (s : PoolState)
    (evs : List FeedEvent) :
    (runEvents b cb s evs).pool = s.pool := by
  induction evs generalizing s with
  | nil => rfl
  | cons ev evs ih =>
    show (runEvents b cb (stepEvent b cb s ev) evs).pool = s.pool
    rw [ih (stepEvent b cb s ev), stepEvent_pool_eq]

/-- C2 as stated is false on the code: `afterFirstBatch` is reached from mount by one
ingestion and one completed `getNextBatch` whose 50 ms settle timeout has not yet fired;
its pool is non-empty, yet the busy-flag guard (line 98) makes the next `getNextBatch`
return without growing the displayed list. -/
theorem C2_counterexample :
    0 < afterFirstBatch.pool.length
    ∧ ¬ afterFirstBatch.displayedSpots.length
        < ((getNextBatch 1 true r0 afterFirstBatch).1).displayedSpots.length := by
  decide

/-- C2 amended: if the pool is non-empty, the scheduler-busy flag is clear and
`batchSize ≥ 1` when `getNextBatch` is invoked, the displayed list strictly grows
(the anti-repeat filter's fallback never stalls output). -/
theorem C2_progress_amended (batchSize : Nat) (hasOnFetchMore : Bool) (rand : Nat → Nat)
    (s : PoolState)
    (hb : 1 ≤ batchSize) (hbusy : s.isReshuffling = false) (hpool : s.pool ≠ []) :
    s.displayedSpots.length
      < ((getNextBatch batchSize hasOnFetchMore rand s).1).displayedSpots.length := by
  have hp : 0 < s.pool.length := List.length_pos.2 hpool
  have hcand : 0 < (candidateBatch batchSize rand s).length := by
    simp only [candidateBatch, List.length_take, length_shuffleArray]
    omega
  have hadd : 0 < (spotsToAddOf batchSize rand s).length := by
    unfold spotsToAddOf
    split
    · assumption
    · exact hcand
  unfold getNextBatch preloadNextBatch
  rw [if_neg (by omega), if_neg (by simp [hbusy])]
  show s.displayedSpots.length < (s.displayedSpots ++ spotsToAddOf batchSize rand s).length
  rw [List.length_append]
  omega

/-- Witness for the amended C2 at `seededState` (pool `[a]`, busy flag clear). -/
theorem C2_progress_amended_witness :
    seededState.displayedSpots.length
      < ((getNextBatch 1 true r0 seededState).1).displayedSpots.length :=
  C2_progress_amended 1 true r0 seededState (by decide) (by decide) (by decide)

/-- C3 as stated is false on the code: at the reachable busy state `afterFirstBatch`
(non-empty pool, settle timeout pending) the claimed candidate-filter-fallback batch
`spotsToAddOf` is not appended — the call returns with the displayed list unchanged. -/
theorem C3_counterexample :
    afterFirstBatch.pool ≠ []
    ∧ (getNextBatch 1 true r0 afterFirstBatch).1.displayedSpots
        ≠ afterFirstBatch.displayedSpots ++ spotsToAddOf 1 r0 afterFirstBatch := by
  decide

/-- C3 amended: for every `getNextBatch` invocation with non-empty pool, clear busy flag
and `batchSize ≥ 1`, the displayed list is extended by exactly `spotsToAddOf`: the
anti-repeat-filtered candidate batch — the first `min (batchSize * 2)` items of a shuffled
copy of the pool with recently displayed identifiers removed — or the unfiltered candidate
batch when the filter removed everything. -/
theorem C3_candidate_batch_amended (batchSize : Nat) (hasOnFetchMore : Bool)
    (rand : Nat → Nat) (s : PoolState)
    (hb : 1 ≤ batchSize) (hbusy : s.isReshuffling = false) (hpool : s.pool ≠ []) :
    (getNextBatch batchSize hasOnFetchMore rand s).1.displayedSpots
      = s.displayedSpots ++ spotsToAddOf batchSize rand s := by
  have hp : 0 < s.pool.length := List.length_pos.2 hpool
  unfold getNextBatch preloadNextBatch
  rw [if_neg (by omega), if_neg (by simp [hbusy])]

/-- Witness for the amended C3 at `seededState`: the whole pool was just displayed, so
the filter empties the candidate batch and the unfiltered batch is appended. -/
theorem C3_candidate_batch_amended_witness :
    (getNextBatch 1 true r0 seededState).1.displayedSpots
      = seededState.displayedSpots ++ spotsToAddOf 1 r0 seededState :=
  C3_candidate_batch_amended 1 true r0 seededState (by decide) (by decide) (by decide)

/-- C8: with an empty pool and a fetch callback supplied, `getNextBatch` invokes the
callback exactly once and returns with the state — displayed list and pool included —
completely unchanged. -/
theorem C8_empty_pool_fetches (batchSize : Nat) (rand : Nat → Nat) (s : PoolState)
    (hb : 1 ≤ batchSize) (hpool : s.pool = []) :
    getNextBatch batchSize true rand s = (s, 1) := by
  have hz : s.pool.length = 0 := by rw [hpool]; rfl
  have h1 : fetchBefore batchSize true s = 1 := by
    unfold fetchBefore
    rw [if_pos ⟨by omega, rfl⟩]
  unfold getNextBatch preloadNextBatch
  rw [if_pos ⟨by omega, hz⟩, h1]

/-- A state with an empty pool and ten displayed spots (the spec's scenario 5). -/
def tenState : PoolState :=
  { initState with
    displayedSpots :=
      [spotA, spotB, spotC, spotD, spotE, spotF, spotA, spotB, spotC, spotD] }

/-- Witness for C8: empty pool, ten displayed spots, `batchSize = 20` — the callback
fires once and the displayed list length stays 10. -/
theorem C8_empty_pool_fetches_witness :
    getNextBatch 20 true r0 tenState = (tenState, 1)
    ∧ (getNextBatch 20 true r0 tenState).1.displayedSpots.length = 10 :=
  ⟨C8_empty_pool_fetches 20 r0 tenState (by decide) rfl, by decide⟩

/-- C9: deduplication works across calls, not within one: the incoming array is filtered
against the seen set as of the start of the call, so two copies of a not-yet-seen spot
both pass the filter and are both appended to the pool. -/
theorem C9_within_call_duplicates (batchSize maxPoolSize : Nat) (rand : Nat → Nat)
    (s : PoolState) (sp : Spot) (rest : List Spot)
    (hid : sp.id ∉ s.seenIds)
    (hroom : s.pool.length + 2 + (unseenOf s rest).length ≤ maxPoolSize) :
    (ingestSpots batchSize maxPoolSize rand s (sp :: sp :: rest)).pool
      = s.pool ++ sp :: sp :: unseenOf s rest := by
  have hfil : unseenOf s (sp :: sp :: rest) = sp :: sp :: unseenOf s rest := by
    simp [unseenOf, hid]
  unfold ingestSpots
  rw [if_neg (by simp)]
  rw [hfil, if_pos (by simp), finishInitialLoad_pool, maintain_pool_eq]
  have hlen : (s.pool ++ sp :: sp :: unseenOf s rest).length - maxPoolSize = 0 := by
    rw [List.length_append]
    simp only [List.length_cons]
    omega
  rw [hlen, List.drop_zero]

/-- Witness for C9: ingesting `[a, a]` from mount appends both copies to the pool. -/
theorem C9_within_call_duplicates_witness :
    ((ingestSpots 2 5 r0 initState [spotA, spotA]).pool
        = initState.pool ++ spotA :: spotA :: unseenOf initState [])
    ∧ (ingestSpots 2 5 r0 initState [spotA, spotA]).pool = [spotA, spotA] :=
  ⟨C9_within_call_duplicates 2 5 r0 initState spotA [] (by decide) (by decide), by decide⟩

/-- C10: a `getNextBatch` call that arrives while the busy flag is set and the pool is
below `batchSize` still invokes the fetch callback — the low-pool check of lines 88-91
precedes the busy-flag guard of line 98 — and leaves the state unchanged. -/
theorem C10_busy_low_pool_still_fetches (batchSize : Nat) (rand : Nat → Nat)
    (s : PoolState)
    (hbusy : s.isReshuffling = true) (hlow : s.pool.length < batchSize) :
    getNextBatch batchSize true rand s = (s, 1) := by
  have h1 : fetchBefore batchSize true s = 1 := by
    unfold fetchBefore
    rw [if_pos ⟨hlow, rfl⟩]
  unfold getNextBatch preloadNextBatch
  by_cases hz : s.pool.length = 0
  · rw [if_pos ⟨hlow, hz⟩, h1]
  · rw [if_neg (fun hc => hz hc.2), if_pos hbusy, h1]

/-- Witness for C10: the busy reachable state `afterFirstBatch` with `batchSize = 2`
(pool holds one spot): the callback fires once, nothing else changes. -/
theorem C10_busy_low_pool_still_fetches_witness :
    getNextBatch 2 true r0 afterFirstBatch = (afterFirstBatch, 1) :=
  C10_busy_low_pool_still_fetches 2 r0 afterFirstBatch (by decide) (by decide)

theorem seen_subset_foldl : ∀ (l : List Spot) (acc : Finset String),
    acc ⊆ l.foldl (fun a sp => insert sp.id a) acc
  | [], _ => Finset.Subset.refl _
  | x :: xs, acc =>
    Finset.Subset.trans (Finset.subset_insert x.id acc)
      (seen_subset_foldl xs (insert x.id acc))

theorem mem_seen_foldl : ∀ (l : List Spot) (acc : Finset String) (x : Spot), x ∈ l →
    x.id ∈ l.foldl (fun a sp => insert sp.id a) acc
  | [], _, x, hx => absurd hx (List.not_mem_nil x)
  | y :: ys, acc, x, hx => by
    rcases List.mem_cons.1 hx with h | h
    · subst h
      exact seen_subset_foldl ys (insert x.id acc) (Finset.mem_insert_self x.id acc)
    · exact mem_seen_foldl ys (insert y.id acc) x h

theorem mem_unseenOf (s : PoolState) (spots : List Spot) (x : Spot)
    (hx : x ∈ unseenOf s spots) : x.id ∉ s.seenIds := by
  have := (List.mem_filter.1 hx).2
  simpa using this

theorem maintain_pool_subset (M : Nat) (s : PoolState) (ns : List Spot) :
    (maintainPoolSize M s ns).pool ⊆ s.pool ++ ns := by
  rw [maintain_pool_eq]
  exact List.drop_subset _ _

theorem maintain_seen_mono (M : Nat) (s : PoolState) (ns : List Spot) :
    s.seenIds ⊆ (maintainPoolSize M s ns).seenIds :=
  seen_subset_foldl ns s.seenIds

theorem maintain_pool_ids_seen (M : Nat) (s : PoolState) (ns : List Spot)
    (h : ∀ x ∈ s.pool, x.id ∈ s.seenIds) :
    ∀ x ∈ (maintainPoolSize M s ns).pool, x.id ∈ (maintainPoolSize M s ns).seenIds := by
  intro x hx
  rcases List.mem_append.1 (maintain_pool_subset M s ns hx) with hmem | hmem
  · exact maintain_seen_mono M s ns (h x hmem)
  · exact mem_seen_foldl ns s.seenIds x hmem

theorem maintain_pool_length (M : Nat) (s : PoolState) (ns : List Spot) :
    (maintainPoolSize M s ns).pool.length = min (s.pool.length + ns.length) M := by
  rw [maintain_pool_eq, List.length_drop, List.length_append]
  omega

/-- Inductive invariant of the hook state: before initialization the seen set is empty,
and every pooled spot's identifier has been recorded as seen. -/
def SeenInv (s : PoolState) : Prop :=
  (s.initialized = false → s.seenIds = ∅) ∧ ∀ x ∈ s.pool, x.id ∈ s.seenIds

theorem seenInv_init : SeenInv initState :=
  ⟨fun _ => rfl, fun x hx => absurd hx (List.not_mem_nil x)⟩

theorem initial_absorb_unreachable (s : PoolState) (spots : List Spot)
    (hinv : SeenInv s) (hnew : ¬ 0 < (unseenOf s spots).length)
    (hini : (!s.initialized) = true ∧ 0 < spots.length) : False := by
  have hfalse : s.initialized = false := by
    cases h : s.initialized
    · rfl
    · rw [h] at hini
      exact absurd hini.1 (by simp)
  have hseen : s.seenIds = ∅ := hinv.1 hfalse
  have hall : unseenOf s spots = spots := by
    simp [unseenOf, hseen]
  rw [hall] at hnew
  exact hnew hini.2

theorem seenInv_ingest (b M : Nat) (r : Nat → Nat) (s : PoolState) (spots : List Spot)
    (hM : 1 ≤ M) (hinv : SeenInv s) :
    SeenInv (ingestSpots b M r s spots) := by
  unfold ingestSpots
  by_cases hsp : spots.length = 0
  · rw [if_pos hsp]; exact hinv
  rw [if_neg hsp]
  by_cases hnew : 0 < (unseenOf s spots).length
  · rw [if_pos hnew]
    have hpool1 := maintain_pool_ids_seen M s (unseenOf s spots) hinv.2
    unfold finishInitialLoad
    split
    · exact ⟨(fun h => nomatch h), hpool1⟩
    · next hcond =>
      refine ⟨fun hfalse => ?_, hpool1⟩
      exfalso
      apply hcond
      refine ⟨?_, ?_⟩
      · have : s.initialized = false := hfalse
        rw [this]
        rfl
      · rw [maintain_pool_length]
        omega
  · rw [if_neg hnew]
    by_cases hini : ((!s.initialized) = true ∧ 0 < spots.length)
    · exact absurd (initial_absorb_unreachable s spots hinv hnew hini) not_false
    · rw [if_neg hini]
      unfold finishInitialLoad
      split
      · exact ⟨(fun h => nomatch h), hinv.2⟩
      · exact hinv

theorem ingest_seen_mono (b M : Nat) (r : Nat → Nat) (s : PoolState) (spots : List Spot) :
    s.seenIds ⊆ (ingestSpots b M r s spots).seenIds := by
  unfold ingestSpots
  by_cases hsp : spots.length = 0
  · rw [if_pos hsp]
  rw [if_neg hsp, finishInitialLoad_seen]
  split
  · exact maintain_seen_mono M s _
  · split
    · exact maintain_seen_mono M s _
    · exact Finset.Subset.refl _

theorem ingest_pool_new (b M : Nat) (r : Nat → Nat) (s : PoolState) (spots : List Spot)
    (hM : 1 ≤ M) (hinv : SeenInv s) :
    (ingestSpots b M r s spots).pool ⊆ s.pool ++ unseenOf s spots := by
  unfold ingestSpots
  by_cases hsp : spots.length = 0
  · rw [if_pos hsp]
    exact fun x hx => List.mem_append.2 (Or.inl hx)
  rw [if_neg hsp, finishInitialLoad_pool]
  by_cases hnew : 0 < (unseenOf s spots).length
  · rw [if_pos hnew]
    exact maintain_pool_subset M s _
  · rw [if_neg hnew]
    by_cases hini : ((!s.initialized) = true ∧ 0 < spots.length)
    · exact absurd (initial_absorb_unreachable s spots hinv hnew hini) not_false
    · rw [if_neg hini]
      exact fun x hx => List.mem_append.2 (Or.inl hx)

theorem seenInv_runIngests (b M : Nat) (hM : 1 ≤ M)
    (calls : List ((Nat → Nat) × List Spot)) :
    SeenInv (runIngests b M initState calls) := by
  suffices h : ∀ s, SeenInv s → SeenInv (runIngests b M s calls) from
    h initState seenInv_init
  induction calls with
  | nil => exact fun s hs => hs
  | cons c cs ih =>
    intro s hs
    exact ih _ (seenInv_ingest b M c.1 s c.2 hM hs)

/-- C7: across any sequence of ingestion calls from mount, a later call never re-adds an
identifier accepted (pooled and marked seen) by a prior one: after the next ingestion the
pool is contained in the previous pool extended by the incoming spots that pass the
unseen-id filter (whose identifiers were not in the seen set, by `mem_unseenOf`), the
seen set only grows, and every previously pooled identifier is already in the seen set. -/
theorem C7_no_duplicate_ingestion (b M : Nat) (hM : 1 ≤ M)
    (calls : List ((Nat → Nat) × List Spot)) (r : Nat → Nat) (spots : List Spot) :
    (ingestSpots b M r (runIngests b M initState calls) spots).pool
        ⊆ (runIngests b M initState calls).pool
            ++ unseenOf (runIngests b M initState calls) spots
    ∧ (runIngests b M initState calls).seenIds
        ⊆ (ingestSpots b M r (runIngests b M initState calls) spots).seenIds
    ∧ ((runIngests b M initState calls).pool.map fun x => x.id).toFinset
        ⊆ (runIngests b M initState calls).seenIds := by
  have hinv := seenInv_runIngests b M hM calls
  refine ⟨ingest_pool_new b M r _ spots hM hinv, ingest_seen_mono b M r _ spots, ?_⟩
  intro a ha
  rw [List.mem_toFinset] at ha
  obtain ⟨x, hx, rfl⟩ := List.mem_map.1 ha
  exact hinv.2 x hx

/-- Witness for C7: after ingesting `[a]` once, a second ingestion offering `[a]` again
keeps the pool within the filtered extension and the seen set monotone. -/
theorem C7_no_duplicate_ingestion_witness :
    (ingestSpots 2 1 r0 (runIngests 2 1 initState [(r0, [spotA])]) [spotA]).pool
        ⊆ (runIngests 2 1 initState [(r0, [spotA])]).pool
            ++ unseenOf (runIngests 2 1 initState [(r0, [spotA])]) [spotA]
    ∧ (runIngests 2 1 initState [(r0, [spotA])]).seenIds
        ⊆ (ingestSpots 2 1 r0 (runIngests 2 1 initState [(r0, [spotA])]) [spotA]).seenIds
    ∧ ((runIngests 2 1 initState [(r0, [spotA])]).pool.map fun x => x.id).toFinset
        ⊆ (runIngests 2 1 initState [(r0, [spotA])]).seenIds :=
  C7_no_duplicate_ingestion 2 1 (by decide) [(r0, [spotA])] r0 [spotA]

end InfiniteShuffledSpots
